import Mathlib

/-!
Shallow embedding of the quantity-takeoff (QTO) engine of this repository
(`src/ifc5d/ifc5d/qto.py`) and of the alignment helper
(`src/ifcopenshell-python/ifcopenshell/alignment.py`), together with theorems
checking the natural-language specification against the code.

Python dictionaries are embedded as insertion-ordered association lists,
Python sets as lists (membership is what matters), floats as rationals, and
the external toolkit functions (geometry kernel, `ifcopenshell.util.*`,
Blender object access) as fields of an `Externals` record that every
operation is parametric over.
-/

namespace Qto

/-- Association-list lookup, modelling Python `dict` access `d.get(k)`. -/
def lookupAssoc {κ α : Type} [DecidableEq κ] : List (κ × α) → κ → Option α
  | [], _ => none
  | (k', v) :: rest, k => if k = k' then some v else lookupAssoc rest k

/-- Association-list update, modelling Python `dict` item assignment: an
existing key keeps its position and gets the new value, a new key is appended
at the end, matching `dict` insertion order. -/
def updateAssoc {κ α : Type} [DecidableEq κ] : List (κ × α) → κ → (Option α → α) → List (κ × α)
  | [], k, f => [(k, f none)]
  | (k', v) :: rest, k, f =>
    if k = k' then (k, f (some v)) :: rest else (k', v) :: updateAssoc rest k f

/-- Python `dict.setdefault`. -/
def setdefaultAssoc {κ α : Type} [DecidableEq κ] (m : List (κ × α)) (k : κ) (d : α) :
    List (κ × α) :=
  updateAssoc m k (fun old => old.getD d)

/-- The keys of an association list, in order. -/
def keysOf {κ α : Type} (m : List (κ × α)) : List κ := m.map Prod.fst

/-- Python `s.startswith(p)`. -/
def strStartsWith (p s : String) : Bool := p.data.isPrefixOf s.data

/-- Python `s.endswith(p)`. -/
def strEndsWith (p s : String) : Bool := p.data.isSuffixOf s.data

/-- Helper for `partitionAfter`: drop characters up to and including the first
occurrence of `sep`; the empty list if `sep` does not occur. -/
def dropThroughChar (sep : Char) : List Char → List Char
  | [] => []
  | c :: rest => if c = sep then rest else dropThroughChar sep rest

/-- Python `s.partition(sep)[2]` for a one-character separator: everything
after the first occurrence of `sep`, and the empty string when `sep` does not
occur in `s`. -/
def partitionAfter (sep : Char) (s : String) : String := ⟨dropThroughChar sep s.data⟩

/-- Python `s.upper()` (used on IFC type names, which are ASCII). -/
def strUpper (s : String) : String := ⟨s.data.map Char.toUpper⟩

/-- An IFC entity as seen by `qto.py`: its schema class (`element.is_a()`),
whether it is an `IfcTypeProduct` (`element.is_a("IfcTypeProduct")`), and its
step id (`ifc_file.by_id` recovers the element from a shape's id). -/
structure Element where
  id : Nat
  ifcClass : String
  isTypeProduct : Bool
deriving DecidableEq

/-- The only geometry setting `qto.py` touches:
`settings.set("disable-opening-subtractions", True)`. -/
structure Settings where
  disableOpeningSubtractions : Bool
deriving DecidableEq

/-- `ifcopenshell.geom.settings()` with its defaults (openings subtracted). -/
def defaultSettings : Settings := ⟨false⟩

/-- An abstract handle for a triangulated geometry produced by the kernel. -/
structure Geometry where
  handle : Nat
deriving DecidableEq

/-- A Blender object as seen by `Blender.calculate` (`obj.type`). -/
structure BlenderObj where
  objType : String
deriving DecidableEq

/-- A project unit as produced by `ifcopenshell.util.unit.get_project_unit`
after the constructor of `SI2ProjectUnitConverter` projects it to
`(getattr(value, "Prefix", "None"), value.Name)`. The first component is the
literal string `"None"` when the unit has no Prefix attribute. -/
structure ProjectUnit where
  unitPrefix : String
  unitName : String
deriving DecidableEq

/-- The slice of an `ifcopenshell.file` that `qto.py` reads: the schema
identifier, the declared project unit per unit type, and (for `edit_qtos`)
the quantity sets attached to each element. -/
structure IfcFile where
  schema : String
  projectUnit : String → Option ProjectUnit
  qsets : Element → List (String × List (String × ℚ))

/-- Abstract parameters for every function of the wider toolkit that
`qto.py` calls but that lives outside `src/` (geometry kernel,
`ifcopenshell.util.type` / `.shape` / `.unit`, Blender object access). The
embedding is parametric over them; the theorems hold for every
interpretation. -/
structure Externals where
  /-- `ifcopenshell.util.type.get_applicable_types(ifc_class, schema)`. -/
  applicableTypes : String → String → List String
  /-- Shape creation by the geometry kernel for an element under given
  settings; `none` when the element has no body geometry, in which case the
  iterators skip it. -/
  createShape : Settings → Element → Option Geometry
  /-- `getattr(ifcopenshell.util.shape, name)(geometry)`: the raw SI value
  of a shape function applied to triangulated geometry. -/
  shapeFn : String → Geometry → ℚ
  /-- `ifcopenshell.util.unit.convert(value, None, si_unit_name, prefix,
  unit_name)`: arguments are the value, the SI unit name, and the target
  project unit. -/
  unitConvert : ℚ → String → String × String → ℚ
  /-- `IfcOpenShell.get_segment_length(element)`: reads the element's
  extruded-area-solid representation attributes (values already expressed in
  project units, hence never unit-converted by the caller). -/
  getSegmentLength : Element → ℚ
  /-- `bonsai.tool.Ifc.get_object(element)`. -/
  getObject : Element → Option BlenderObj
  /-- `getattr(bonsai.bim.module.qto.calculator, formula)(obj)`; `None`
  results are skipped by `Blender.calculate`. -/
  calcFn : String → BlenderObj → Option ℚ

/-- `Function = namedtuple("Function", ["measure", "name", "description"])`. -/
structure Function where
  measure : String
  name : String
  description : String
deriving DecidableEq

/-- Quantity rules for one calculator and IFC class: qto set name, then
quantity name to formula (`None` formulas are skipped). -/
abbrev Qtos := List (String × List (String × Option String))

/-- `QtosFormulas = dict[str, dict[str, str]]`. -/
abbrev QtosFormulas := List (String × List (String × String))

/-- `ResultsDict = dict[element, dict[str, dict[str, float]]]`. -/
abbrev Results := List (Element × List (String × List (String × ℚ)))

namespace IfcOpenShell

/-- `IfcOpenShell.raw_functions`: the shape functions the geometry-kernel
calculator supports, with their measure kinds. -/
def raw_functions : List (String × Function) :=
  [("get_x", ⟨"IfcLengthMeasure", "X", "Calculates the length along the local X axis"⟩),
   ("get_y", ⟨"IfcLengthMeasure", "Y", "Calculates the length along the local Y axis"⟩),
   ("get_z", ⟨"IfcLengthMeasure", "Z", "Calculates the length along the local Z axis"⟩),
   ("get_max_xy", ⟨"IfcLengthMeasure", "Max XY", "The maximum X or Y local dimension"⟩),
   ("get_max_xyz", ⟨"IfcLengthMeasure", "Max XYZ", "The maximum X, Y, or Z local dimension"⟩),
   ("get_min_xyz", ⟨"IfcLengthMeasure", "Min XYZ", "The minimum X, Y, or Z local dimension"⟩),
   ("get_top_elevation", ⟨"IfcLengthMeasure", "Top elevation", "The local maximum Z ordinate"⟩),
   ("get_bottom_elevation", ⟨"IfcLengthMeasure", "Bottom Elevation", "The local minimum Z ordinate"⟩),
   ("get_footprint_perimeter",
    ⟨"IfcLengthMeasure", "Footprint Perimeter",
     "The perimeter if the object's faces were projected along the Z-axis and seen top down"⟩),
   ("get_segment_length",
    ⟨"IfcLengthMeasure", "Segment Length", "Intelligently guesses the length of flow segments"⟩),
   ("get_area", ⟨"IfcAreaMeasure", "Area", "The total surface area of the element"⟩),
   ("get_footprint_area",
    ⟨"IfcAreaMeasure", "Footprint Area",
     "The area if the object's faces were projected along the Z-axis and seen top down"⟩),
   ("get_max_side_area",
    ⟨"IfcAreaMeasure", "Max Side Area",
     "The maximum side area when seen from either X, Y, or Z directions"⟩),
   ("get_outer_surface_area",
    ⟨"IfcAreaMeasure", "Outer Surface Area",
     "The total surface area except for the top or bottom, such as the ends of columns or beams"⟩),
   ("get_side_area",
    ⟨"IfcAreaMeasure", "Side area",
     "The side (non-projected) are of the shape as seen from the local Y-axis"⟩),
   ("get_top_area",
    ⟨"IfcAreaMeasure", "Top area",
     "The total surface area deviating by no more than 45 degrees from the local Z+ axis."⟩),
   ("get_volume", ⟨"IfcVolumeMeasure", "Volume", "Calculates the volume of a manifold shape"⟩)]

/-- `IfcOpenShell.functions`: for every raw function `k`, the supported
formulas `gross_k` and `net_k`. -/
def functions : List (String × Function) :=
  raw_functions.flatMap (fun kv =>
    [("gross_" ++ kv.1, ⟨kv.2.measure, "Gross " ++ kv.2.name, kv.2.description⟩),
     ("net_" ++ kv.1, ⟨kv.2.measure, "Net " ++ kv.2.name, kv.2.description⟩)])

/-- `cls.gross_settings`: default settings with
`disable-opening-subtractions` set to `True`. -/
def gross_settings : Settings := { defaultSettings with disableOpeningSubtractions := true }

/-- `cls.net_settings`: plain default settings (openings subtracted). The
source constructs this but `calculate` never uses it. -/
def net_settings : Settings := defaultSettings

/-- The measure of a raw shape function,
`IfcOpenShell.raw_functions[formula].measure`. An unknown formula raises
`KeyError` in the source; that case is unreachable from the classification
below and is given a default here only for totality. -/
def measureOf (formula : String) : String :=
  ((lookupAssoc raw_functions formula).getD ⟨"", "", ""⟩).measure

end IfcOpenShell

namespace Blender

/-- `Blender.functions`: the Blender-object-heuristic formulas. -/
def functions : List (String × Function) :=
  [("get_covering_width", ⟨"IfcLengthMeasure", "Covering Width", ""⟩),
   ("get_finish_ceiling_height", ⟨"IfcLengthMeasure", "Finish Ceiling Height", ""⟩),
   ("get_finish_floor_height", ⟨"IfcLengthMeasure", "Finish Floor Height", ""⟩),
   ("get_gross_perimeter", ⟨"IfcLengthMeasure", "Gross Perimeter", ""⟩),
   ("get_height", ⟨"IfcLengthMeasure", "Height", ""⟩),
   ("get_length", ⟨"IfcLengthMeasure", "Length", ""⟩),
   ("get_opening_depth", ⟨"IfcLengthMeasure", "Opening Depth", ""⟩),
   ("get_opening_height", ⟨"IfcLengthMeasure", "Opening Height", ""⟩),
   ("get_rectangular_perimeter", ⟨"IfcLengthMeasure", "Rectangular Perimeter", ""⟩),
   ("get_stair_length", ⟨"IfcLengthMeasure", "Stair Length", ""⟩),
   ("get_width", ⟨"IfcLengthMeasure", "Width", ""⟩),
   ("get_covering_gross_area", ⟨"IfcAreaMeasure", "Covering Gross Area", ""⟩),
   ("get_covering_net_area", ⟨"IfcAreaMeasure", "Covering Net Area", ""⟩),
   ("get_cross_section_area", ⟨"IfcAreaMeasure", "Cross Section Area", ""⟩),
   ("get_gross_ceiling_area", ⟨"IfcAreaMeasure", "Gross Ceiling Area", ""⟩),
   ("get_gross_footprint_area", ⟨"IfcAreaMeasure", "Gross Footprint Area", ""⟩),
   ("get_gross_side_area", ⟨"IfcAreaMeasure", "Gross Side Area", ""⟩),
   ("get_gross_stair_area", ⟨"IfcAreaMeasure", "Gross Stair Area", ""⟩),
   ("get_gross_surface_area", ⟨"IfcAreaMeasure", "Gross Surface Area", ""⟩),
   ("get_gross_top_area", ⟨"IfcAreaMeasure", "Gross Top Area", ""⟩),
   ("get_net_ceiling_area", ⟨"IfcAreaMeasure", "Net Ceiling Area", ""⟩),
   ("get_net_floor_area", ⟨"IfcAreaMeasure", "Net Floor Area", ""⟩),
   ("get_net_footprint_area", ⟨"IfcAreaMeasure", "Net Footprint Area", ""⟩),
   ("get_net_side_area", ⟨"IfcAreaMeasure", "Net Side Area", ""⟩),
   ("get_net_stair_area", ⟨"IfcAreaMeasure", "Net Stair Area", ""⟩),
   ("get_net_surface_area", ⟨"IfcAreaMeasure", "Net Surface Area", ""⟩),
   ("get_net_top_area", ⟨"IfcAreaMeasure", "Net Top Area", ""⟩),
   ("get_opening_mapping_area", ⟨"IfcAreaMeasure", "Opening Mapping Area", ""⟩),
   ("get_outer_surface_area", ⟨"IfcAreaMeasure", "Outer Surface Area", ""⟩),
   ("get_gross_volume", ⟨"IfcVolumeMeasure", "Gross Volume", ""⟩),
   ("get_net_volume", ⟨"IfcVolumeMeasure", "Net Volume", ""⟩),
   ("get_space_net_volume", ⟨"IfcVolumeMeasure", "Space Net Volume", ""⟩),
   ("get_gross_weight", ⟨"IfcMassMeasure", "Gross Weight", ""⟩),
   ("get_net_weight", ⟨"IfcMassMeasure", "Net Weight", ""⟩)]

/-- The measure of a Blender formula, `Blender.functions[formula].measure`
(default for totality; the source raises `KeyError` instead). -/
def measureOf (formula : String) : String :=
  ((lookupAssoc functions formula).getD ⟨"", "", ""⟩).measure

end Blender

/-- The measure-to-unit-type table of the `SI2ProjectUnitConverter`
constructor, in source order. -/
def measureUnitTypes : List (String × String) :=
  [("IfcAreaMeasure", "AREAUNIT"), ("IfcLengthMeasure", "LENGTHUNIT"),
   ("IfcMassMeasure", "MASSUNIT"), ("IfcTimeMeasure", "TIMEUNIT"),
   ("IfcVolumeMeasure", "VOLUMEUNIT")]

/-- `SI2ProjectUnitConverter.si_names`. -/
def si_names : List (String × String) :=
  [("IfcAreaMeasure", "SQUARE_METRE"), ("IfcLengthMeasure", "METRE"),
   ("IfcMassMeasure", "GRAM"), ("IfcTimeMeasure", "SECOND"),
   ("IfcVolumeMeasure", "CUBIC_METRE")]

/-- The state of a `SI2ProjectUnitConverter`: per measure kind, either the
project-declared unit `(prefix-string, name)` or `none` when the project
declares no unit of that kind. -/
structure SI2ProjectUnitConverter where
  project_units : List (String × Option (String × String))
deriving DecidableEq

/-- The `SI2ProjectUnitConverter` constructor: look up the project unit for
each of the five measure kinds and keep `(getattr(value, "Prefix", "None"),
value.Name)` for the declared ones. -/
def SI2ProjectUnitConverter.ofFile (file : IfcFile) : SI2ProjectUnitConverter :=
  ⟨measureUnitTypes.map (fun mu =>
    (mu.1, (file.projectUnit mu.2).map (fun u => (u.unitPrefix, u.unitName))))⟩

/-- `SI2ProjectUnitConverter.convert`: when a project unit is declared for
the measure, convert from the SI unit to it via
`ifcopenshell.util.unit.convert`; otherwise return the value unchanged. -/
def SI2ProjectUnitConverter.convert (ext : Externals) (c : SI2ProjectUnitConverter)
    (value : ℚ) (measure : String) : ℚ :=
  match (lookupAssoc c.project_units measure).join with
  | some mu => ext.unitConvert value ((lookupAssoc si_names measure).getD "") mu
  | none => value

/-- `gross_or_net_qtos.setdefault(name, {})[quantity] = formula`. -/
def setQF (qf : QtosFormulas) (name quantity formula : String) : QtosFormulas :=
  updateAssoc qf name (fun qs => updateAssoc (qs.getD []) quantity (fun _ => formula))

/-- The three accumulators of the classification loop of
`IfcOpenShell.calculate`: the gross and net formula buckets and the set of
formula names registered in `formula_functions`. -/
structure Classified where
  gross_qtos : QtosFormulas
  net_qtos : QtosFormulas
  formula_functions : List String
deriving DecidableEq

/-- One step of the classification loop of `IfcOpenShell.calculate` (lines
239-249 of `qto.py`): skip `None` formulas; formulas ending in
`get_segment_length` go to the gross or net bucket stripped of everything up
to the first underscore; other formulas starting with `gross_` or `net_` are
stripped likewise, bucketed, and their stripped name is registered in
`formula_functions` (the `getattr(ifcopenshell.util.shape, formula)`
lookup); everything else is dropped. -/
def classifyQuantity (acc : Classified) (name quantity : String) :
    Option String → Classified
  | none => acc
  | some formula =>
    let isGross := strStartsWith "gross_" formula
    if strEndsWith "get_segment_length" formula then
      let f := partitionAfter '_' formula
      if isGross then { acc with gross_qtos := setQF acc.gross_qtos name quantity f }
      else { acc with net_qtos := setQF acc.net_qtos name quantity f }
    else if strStartsWith "gross_" formula || strStartsWith "net_" formula then
      let f := partitionAfter '_' formula
      let ff := if f ∈ acc.formula_functions then acc.formula_functions
                else acc.formula_functions ++ [f]
      if isGross then
        { acc with gross_qtos := setQF acc.gross_qtos name quantity f, formula_functions := ff }
      else
        { acc with net_qtos := setQF acc.net_qtos name quantity f, formula_functions := ff }
    else acc

/-- The whole classification loop over the configured qto sets. -/
def classifyQtos (qtos : Qtos) : Classified :=
  qtos.foldl (fun acc nq =>
    nq.2.foldl (fun acc qf => classifyQuantity acc nq.1 qf.1 qf.2) acc) ⟨[], [], []⟩

/-- The two kinds of iterator `create_iterators` can return: the in-repo
`IteratorForTypes` mimic for `IfcTypeProduct`s, and the external
`ifcopenshell.geom.iterator(settings, ifc_file, num_threads,
include=elements)`. -/
inductive Iterator where
  | forTypes (settings : Settings) (elements : List Element)
  | geomIter (settings : Settings) (numThreads : Nat) (incl : List Element)
deriving DecidableEq

/-- `IfcOpenShell.create_iterators`: split the elements into
`IfcTypeProduct`s and the rest, return an `IteratorForTypes` for the former
when nonempty and a geometry-kernel iterator with one worker per CPU core
for the latter when nonempty; the kernel iterator's include filter is the
full element list. -/
def create_iterators (cpuCount : Nat) (settings : Settings) (elements : List Element) :
    List Iterator :=
  let typeProducts := elements.filter (fun e => e.isTypeProduct)
  let products := elements.filter (fun e => !e.isTypeProduct)
  (if typeProducts.isEmpty then [] else [Iterator.forTypes settings typeProducts]) ++
    (if products.isEmpty then [] else [Iterator.geomIter settings cpuCount elements])

/-- The `(element, geometry)` pairs an iterator produces when driven by the
`initialize`, `get`, `next` loop of `IfcOpenShell.calculate`.
`IteratorForTypes` pops its element list from the end and skips elements for
which no shape can be created; the external kernel iterator yields a shape
for every included non-type-product element with body geometry, and the
element is recovered through `ifc_file.by_id(shape.id)`. -/
def iteratorYields (ext : Externals) : Iterator → List (Element × Geometry)
  | Iterator.forTypes settings elems =>
    elems.reverse.filterMap (fun e => (ext.createShape settings e).map (fun g => (e, g)))
  | Iterator.geomIter settings _ incl =>
    (incl.filter (fun e => !e.isTypeProduct)).filterMap
      (fun e => (ext.createShape settings e).map (fun g => (e, g)))

/-- The task list of `IfcOpenShell.calculate` (lines 251-259 of `qto.py`):
iterators paired with the gross bucket when it is nonempty, then iterators
paired with the net bucket when it is nonempty. The source passes
`cls.gross_settings` to `create_iterators` in both branches; `net_settings`
is constructed but never used. -/
def buildTasks (cpuCount : Nat) (elements : List Element) (cls : Classified) :
    List (Iterator × QtosFormulas) :=
  (if cls.gross_qtos.isEmpty then [] else
    (create_iterators cpuCount IfcOpenShell.gross_settings elements).map
      (fun it => (it, cls.gross_qtos))) ++
    (if cls.net_qtos.isEmpty then [] else
      (create_iterators cpuCount IfcOpenShell.gross_settings elements).map
        (fun it => (it, cls.net_qtos)))

/-- The value stored for one quantity (lines 276-283 of `qto.py`): the
`get_segment_length` formula calls `cls.get_segment_length(element)`
directly and is stored unconverted; every other formula applies the shape
function registered under its name to the triangulated geometry and passes
the raw SI value through the unit converter with the formula's measure. -/
def computeQuantity (ext : Externals) (conv : SI2ProjectUnitConverter)
    (element : Element) (geometry : Geometry) (formula : String) : ℚ :=
  if formula = "get_segment_length" then ext.getSegmentLength element
  else
    SI2ProjectUnitConverter.convert ext conv (ext.shapeFn formula geometry)
      (IfcOpenShell.measureOf formula)

/-- `results[element][name][quantity] = v`. -/
def storeQuantity (r : Results) (element : Element) (name quantity : String) (v : ℚ) :
    Results :=
  updateAssoc r element (fun sets =>
    updateAssoc (sets.getD []) name (fun qs =>
      updateAssoc (qs.getD []) quantity (fun _ => v)))

/-- Processing of one `(element, geometry)` pair inside the evaluation loop
of `IfcOpenShell.calculate`: `results.setdefault(element, {})`, then for each
qto set `results[element].setdefault(name, {})` and one store per quantity. -/
def evalElement (ext : Externals) (conv : SI2ProjectUnitConverter) (qtos_ : QtosFormulas)
    (results : Results) (element : Element) (geometry : Geometry) : Results :=
  let results := setdefaultAssoc results element []
  qtos_.foldl (fun results nq =>
    let results := updateAssoc results element (fun sets => setdefaultAssoc (sets.getD []) nq.1 [])
    nq.2.foldl (fun results qf =>
      storeQuantity results element nq.1 qf.1 (computeQuantity ext conv element geometry qf.2))
      results) results

/-- `IfcOpenShell.calculate`: classify the configured formulas, build the
gross and net tasks, then run every task's iterator and store each computed
quantity into the results dictionary. -/
def IfcOpenShell.calculate (ext : Externals) (cpuCount : Nat) (file : IfcFile)
    (elements : List Element) (qtos : Qtos) (results : Results) : Results :=
  let cls := classifyQtos qtos
  let tasks := buildTasks cpuCount elements cls
  let conv := SI2ProjectUnitConverter.ofFile file
  tasks.foldl (fun results task =>
    (iteratorYields ext task.1).foldl (fun results eg =>
      evalElement ext conv task.2 results eg.1 eg.2) results) results

/-- `Blender.calculate`: for each element with a loaded Blender MESH object,
evaluate every configured formula on the object, convert non-`None` values
with the formula's measure, and assign the element's results only when
something was calculated. -/
def Blender.calculate (ext : Externals) (file : IfcFile) (elements : List Element)
    (qtos : Qtos) (results : Results) : Results :=
  let conv := SI2ProjectUnitConverter.ofFile file
  elements.foldl (fun results element =>
    match ext.getObject element with
    | none => results
    | some obj =>
      if obj.objType ≠ "MESH" then results
      else
        let element_results : List (String × List (String × ℚ)) :=
          qtos.filterMap (fun nq =>
            let qto_results := nq.2.filterMap (fun qf =>
              qf.2.bind (fun formula =>
                (ext.calcFn formula obj).map (fun value =>
                  (qf.1, SI2ProjectUnitConverter.convert ext conv value
                    (Blender.measureOf formula)))))
            if qto_results.isEmpty then none else some (nq.1, qto_results))
        if element_results.isEmpty then results
        else updateAssoc results element (fun _ => element_results)) results

/-- The registered calculator kinds. -/
inductive CalculatorKind where
  | Blender
  | IfcOpenShell
deriving DecidableEq

/-- `calculators = {"Blender": Blender, "IfcOpenShell": IfcOpenShell}`. -/
def calculators : List (String × CalculatorKind) :=
  [("Blender", CalculatorKind.Blender), ("IfcOpenShell", CalculatorKind.IfcOpenShell)]

/-- Dispatch `calculator.calculate(ifc_file, filtered_elements, qtos,
results)` to the chosen calculator class. -/
def runCalculator (kind : CalculatorKind) (ext : Externals) (cpuCount : Nat)
    (file : IfcFile) (elements : List Element) (qtos : Qtos) (results : Results) : Results :=
  match kind with
  | CalculatorKind.IfcOpenShell => IfcOpenShell.calculate ext cpuCount file elements qtos results
  | CalculatorKind.Blender => Blender.calculate ext file elements qtos results

/-- The rule table passed to `quantify` (`rules["calculators"]`):
per calculator name, per IFC class, the configured qto sets. -/
structure RulesDict where
  calculators : List (String × List (String × Qtos))

/-- A record of one calculator invocation made by `quantify`: the calculator
name, the rule-table IFC class, and the filtered element set it was invoked
on. -/
abbrev Invocation := String × String × List Element

/-- The `filtered_elements` set of `quantify` for one rule-table class: the
union of the `elements_by_classes` buckets over the class itself and its
applicable type classes for the file's schema. -/
def filteredElements (ext : Externals) (file : IfcFile) (elements : List Element)
    (ifcClass : String) : List Element :=
  (ifcClass :: ext.applicableTypes ifcClass file.schema).flatMap
    (fun c => elements.filter (fun e => e.ifcClass == c))

/-- The body of the inner loop of `quantify` for one rule-table entry: build
the filtered element set and, when it is nonempty, invoke the calculator on
it (also recording the invocation). -/
def quantifyClassStep (ext : Externals) (cpuCount : Nat) (file : IfcFile)
    (elements : List Element) (calcName : String) (kind : CalculatorKind)
    (acc : Results × List Invocation) (classQtos : String × Qtos) :
    Results × List Invocation :=
  let filtered := filteredElements ext file elements classQtos.1
  if filtered.isEmpty then acc
  else
    (runCalculator kind ext cpuCount file filtered classQtos.2 acc.1,
     acc.2 ++ [(calcName, classQtos.1, filtered)])

/-- The body of the outer loop of `quantify` for one calculator group:
`calculator = calculators[calculator]` (a missing key raises `KeyError` in
the source and is embedded as a no-op), then the inner loop over the
group's IFC classes. -/
def quantifyCalcGroup (ext : Externals) (cpuCount : Nat) (file : IfcFile)
    (elements : List Element) (acc : Results × List Invocation)
    (group : String × List (String × Qtos)) : Results × List Invocation :=
  match lookupAssoc calculators group.1 with
  | none => acc
  | some kind => group.2.foldl (quantifyClassStep ext cpuCount file elements group.1 kind) acc

/-- `quantify(ifc_file, elements, rules)`, instrumented to also return the
list of calculator invocations it makes. The results dictionary starts
empty. -/
def quantify (ext : Externals) (cpuCount : Nat) (file : IfcFile)
    (elements : List Element) (rules : RulesDict) : Results × List Invocation :=
  rules.calculators.foldl (quantifyCalcGroup ext cpuCount file elements) ([], [])

/-- `quantify` with the IFC file threaded through explicitly: every
operation `quantify` performs on the file is a read, so the file component
of its translation is returned unchanged. -/
def quantifyFile (ext : Externals) (cpuCount : Nat) (file : IfcFile)
    (elements : List Element) (rules : RulesDict) : IfcFile × Results :=
  (file, (quantify ext cpuCount file elements rules).1)

/-- Modelled from the spec: `ifcopenshell.api.pset.edit_qto` (not under
`src/`), which writes each given quantity into the quantity set, updating
existing properties and keeping the others. -/
def editQtoProps (qs : List (String × ℚ)) (properties : List (String × ℚ)) :
    List (String × ℚ) :=
  properties.foldl (fun qs kv => updateAssoc qs kv.1 (fun _ => kv.2)) qs

/-- `edit_qtos(ifc_file, results)`: for each element and qto set name of the
results, either edit the element's existing non-inherited quantity set of
that name or add a fresh one (`ifcopenshell.api.pset.add_qto`, not under
`src/`, modelled from the spec as attaching an empty named set), then write
the computed quantities into it. -/
def edit_qtos (file : IfcFile) (results : Results) : IfcFile :=
  results.foldl (fun file eq =>
    eq.2.foldl (fun file nq =>
      { file with qsets := fun e =>
          if e = eq.1 then
            updateAssoc (file.qsets e) nq.1 (fun old => editQtoProps (old.getD []) nq.2)
          else file.qsets e }) file) file

/-- `get_args(RULE_SET)`: the two rule-set names. -/
def ruleSetNames : List String := ["IFC4QtoBaseQuantities", "IFC4QtoBaseQuantitiesBlender"]

/-- `os.path.join(cwd, name)` for a relative `name`. -/
def pathJoin (a b : String) : String := a ++ "/" ++ b

/-- The module-import loop of `qto.py` (lines 43-46): load each rule set of
`RULE_SET` into the `rules` table by parsing the JSON file of the same name
in the module's directory. The JSON parser and file contents are abstract
(`readJson`). -/
def loadRules {α : Type} (readJson : String → α) (cwd : String) : List (String × α) :=
  ruleSetNames.foldl
    (fun rs name => updateAssoc rs name (fun _ => readJson (pathJoin cwd (name ++ ".json")))) []

/-- `results[element][name][quantity]` as an optional lookup. -/
def lookupQuantity (r : Results) (e : Element) (name quantity : String) : Option ℚ :=
  (lookupAssoc r e).bind (fun sets =>
    (lookupAssoc sets name).bind (fun qs => lookupAssoc qs quantity))

/-- What the specification asserts about a calculator invocation of
`quantify`: its calculator name is registered, the element set it was
invoked on is nonempty and consists exactly of the input elements whose IFC
class is the rule-table class or one of its applicable type classes for the
file's schema. -/
def SoundInvocation (ext : Externals) (file : IfcFile) (elements : List Element)
    (inv : Invocation) : Prop :=
  inv.2.2 ≠ [] ∧ (lookupAssoc calculators inv.1).isSome = true ∧
    ∀ e, e ∈ inv.2.2 ↔
      e ∈ elements ∧
        (e.ifcClass = inv.2.1 ∨ e.ifcClass ∈ ext.applicableTypes inv.2.1 file.schema)

/-- A concrete interpretation of the external toolkit, used to witness the
theorems at concrete inputs. -/
def ext0 : Externals where
  applicableTypes := fun c _ => if c = "IfcWall" then ["IfcWallType"] else []
  createShape := fun _ e => some ⟨e.id⟩
  shapeFn := fun _ g => (g.handle : ℚ) + 1
  unitConvert := fun v _ _ => v * 1000
  getSegmentLength := fun _ => 7
  getObject := fun _ => none
  calcFn := fun _ _ => none

/-- A concrete IFC file with no declared project units and no quantity sets. -/
def file0 : IfcFile where
  schema := "IFC4"
  projectUnit := fun _ => none
  qsets := fun _ => []

/-- A concrete wall occurrence element. -/
def wall0 : Element := ⟨1, "IfcWall", false⟩

/-- A concrete wall type element. -/
def wallType0 : Element := ⟨2, "IfcWallType", true⟩

/-- A concrete configured qto set. -/
def qtos0 : Qtos :=
  [("Qto_WallBaseQuantities",
    [("NetVolume", some "net_get_volume"), ("GrossVolume", some "gross_get_volume")])]

/-- A concrete rule table with one geometry-kernel rule group. -/
def rules0 : RulesDict := ⟨[("IfcOpenShell", [("IfcWall", qtos0)])]⟩

end Qto

namespace Alignment

/-- The slice of an IFC entity that `evaluate_segment` reads: its class name
(`segment.is_a()`) and its `SegmentLength` attribute. -/
structure Entity where
  isA : String
  segmentLength : ℚ

/-- The two exceptions `evaluate_segment` can raise. -/
inductive EvalError where
  | notImplementedError
  | valueError
deriving DecidableEq

/-- `supported_segment_types = ["IFCCURVESEGMENT"]`. -/
def supported_segment_types : List String := ["IFCCURVESEGMENT"]

/-- `evaluate_segment(segment, dist_along)`: raise `NotImplementedError`
when the uppercased entity type is not a supported segment type, then raise
`ValueError` when `dist_along` exceeds the segment's `SegmentLength`, and
otherwise evaluate the 4x4 transform at `dist_along` through the external
piecewise-function evaluator (`ifcopenshell_wrapper.map_shape` and
`piecewise_function_evaluator`, abstracted as `pwfEvaluate`). -/
def evaluate_segment {M : Type} (pwfEvaluate : Entity → ℚ → M)
    (segment : Entity) (dist_along : ℚ) : Except EvalError M :=
  let segment_type := Qto.strUpper segment.isA
  if segment_type ∉ supported_segment_types then Except.error EvalError.notImplementedError
  else if dist_along > segment.segmentLength then Except.error EvalError.valueError
  else Except.ok (pwfEvaluate segment dist_along)

end Alignment

namespace Qto

theorem foldlInduction {α β : Type} (f : β → α → β) (P : β → Prop) :
    ∀ (l : List α) (b : β), P b → (∀ b' a, a ∈ l → P b' → P (f b' a)) → P (l.foldl f b) := by
  intro l
  induction l with
  | nil => intro b hb _; exact hb
  | cons x xs ih =>
    intro b hb hstep
    exact ih (f b x) (hstep b x (List.mem_cons_self x xs) hb)
      (fun b' a ha => hstep b' a (List.mem_cons_of_mem x ha))

theorem lookupAssoc_updateAssoc_self {κ α : Type} [DecidableEq κ]
    (m : List (κ × α)) (k : κ) (f : Option α → α) :
    lookupAssoc (updateAssoc m k f) k = some (f (lookupAssoc m k)) := by
  induction m with
  | nil => simp [lookupAssoc, updateAssoc]
  | cons kv rest ih =>
    obtain ⟨k', v⟩ := kv
    by_cases h : k = k' <;> simp [lookupAssoc, updateAssoc, h, ih]

theorem lookupAssoc_updateAssoc_ne {κ α : Type} [DecidableEq κ]
    (m : List (κ × α)) (k k' : κ) (f : Option α → α) (hne : k' ≠ k) :
    lookupAssoc (updateAssoc m k f) k' = lookupAssoc m k' := by
  induction m with
  | nil => simp [lookupAssoc, updateAssoc, hne]
  | cons kv rest ih =>
    obtain ⟨k₀, v⟩ := kv
    by_cases h : k = k₀
    · subst h
      simp [lookupAssoc, updateAssoc, hne]
    · by_cases h' : k' = k₀ <;> simp [lookupAssoc, updateAssoc, h, h', ih]

theorem mem_keysOf_updateAssoc {κ α : Type} [DecidableEq κ]
    {m : List (κ × α)} {k a : κ} {f : Option α → α}
    (ha : a ∈ keysOf (updateAssoc m k f)) : a ∈ keysOf m ∨ a = k := by
  induction m with
  | nil => simpa [keysOf, updateAssoc] using ha
  | cons kv rest ih =>
    obtain ⟨k₀, v⟩ := kv
    by_cases h : k = k₀
    · subst h
      simp only [updateAssoc, eq_self_iff_true, if_true, keysOf, List.map_cons,
        List.mem_cons] at ha ⊢
      tauto
    · simp only [updateAssoc, if_neg h, keysOf, List.map_cons, List.mem_cons] at ha ⊢
      rcases ha with rfl | ha
      · exact Or.inl (Or.inl rfl)
      · rcases ih ha with h' | h'
        · exact Or.inl (Or.inr h')
        · exact Or.inr h'

theorem mem_keysOf_setdefaultAssoc {κ α : Type} [DecidableEq κ]
    {m : List (κ × α)} {k a : κ} {d : α}
    (ha : a ∈ keysOf (setdefaultAssoc m k d)) : a ∈ keysOf m ∨ a = k :=
  mem_keysOf_updateAssoc ha

theorem mem_keysOf_storeQuantity {r : Results} {e a : Element} {n q : String} {v : ℚ}
    (ha : a ∈ keysOf (storeQuantity r e n q v)) : a ∈ keysOf r ∨ a = e :=
  mem_keysOf_updateAssoc ha

theorem mem_keysOf_evalElement {ext : Externals} {conv : SI2ProjectUnitConverter}
    {qtos_ : QtosFormulas} {r : Results} {e a : Element} {g : Geometry}
    (ha : a ∈ keysOf (evalElement ext conv qtos_ r e g)) : a ∈ keysOf r ∨ a = e := by
  unfold evalElement at ha
  refine foldlInduction _ (fun r' => ∀ a, a ∈ keysOf r' → a ∈ keysOf r ∨ a = e) qtos_ _
    (fun a ha => mem_keysOf_setdefaultAssoc ha) ?_ a ha
  intro r' nq _ hr' a ha
  refine foldlInduction _ (fun r'' => ∀ a, a ∈ keysOf r'' → a ∈ keysOf r ∨ a = e) nq.2 _
    ?_ ?_ a ha
  · intro a ha
    rcases mem_keysOf_updateAssoc ha with h | h
    · exact hr' a h
    · exact Or.inr h
  · intro r'' qf _ hr'' a ha
    rcases mem_keysOf_storeQuantity ha with h | h
    · exact hr'' a h
    · exact Or.inr h

theorem mem_yields_forTypes {ext : Externals} {s : Settings} {elems : List Element}
    {p : Element × Geometry} (hp : p ∈ iteratorYields ext (Iterator.forTypes s elems)) :
    p.1 ∈ elems := by
  simp only [iteratorYields, List.mem_filterMap, List.mem_reverse, Option.map_eq_some'] at hp
  obtain ⟨e, he, g, _, hg⟩ := hp
  rw [← hg]
  exact he

theorem mem_yields_geomIter {ext : Externals} {s : Settings} {n : Nat} {incl : List Element}
    {p : Element × Geometry} (hp : p ∈ iteratorYields ext (Iterator.geomIter s n incl)) :
    p.1 ∈ incl ∧ p.1.isTypeProduct = false := by
  simp only [iteratorYields, List.mem_filterMap, List.mem_filter, Option.map_eq_some'] at hp
  obtain ⟨e, ⟨he, hty⟩, g, _, hg⟩ := hp
  rw [← hg]
  exact ⟨he, by simpa using hty⟩

theorem mem_create_iterators_cases {cpu : Nat} {s : Settings} {els : List Element}
    {it : Iterator} (hit : it ∈ create_iterators cpu s els) :
    it = Iterator.forTypes s (els.filter (fun e => e.isTypeProduct)) ∨
      it = Iterator.geomIter s cpu els := by
  unfold create_iterators at hit
  rcases List.mem_append.mp hit with h | h <;>
    [skip; skip] <;> split at h <;> simp_all

theorem geomIter_mem_create_iterators {cpu : Nat} {s : Settings} {els : List Element} :
    Iterator.geomIter s cpu els ∈ create_iterators cpu s els ↔
      ∃ e, e ∈ els ∧ e.isTypeProduct = false := by
  unfold create_iterators
  rw [List.mem_append]
  constructor
  · intro h
    rcases h with h | h
    · exfalso
      split at h <;> simp_all
    · cases hp : (els.filter (fun e => !e.isTypeProduct)).isEmpty with
      | true => simp [hp] at h
      | false =>
        rw [List.isEmpty_eq_false_iff_exists_mem] at hp
        obtain ⟨e, he⟩ := hp
        rw [List.mem_filter] at he
        exact ⟨e, he.1, by simpa using he.2⟩
  · rintro ⟨e, he, hty⟩
    have hne : (els.filter (fun e => !e.isTypeProduct)).isEmpty = false := by
      rw [List.isEmpty_eq_false_iff_exists_mem]
      exact ⟨e, List.mem_filter.mpr ⟨he, by simp [hty]⟩⟩
    right
    simp [hne]

theorem mem_yields_of_create_iterators {ext : Externals} {cpu : Nat} {s : Settings}
    {els : List Element} {it : Iterator} (hit : it ∈ create_iterators cpu s els)
    {p : Element × Geometry} (hp : p ∈ iteratorYields ext it) : p.1 ∈ els := by
  rcases mem_create_iterators_cases hit with rfl | rfl
  · exact (List.mem_filter.mp (mem_yields_forTypes hp)).1
  · exact (mem_yields_geomIter hp).1

theorem mem_tasks_cases {cpu : Nat} {els : List Element} {cls : Classified}
    {task : Iterator × QtosFormulas} (ht : task ∈ buildTasks cpu els cls) :
    task.1 ∈ create_iterators cpu IfcOpenShell.gross_settings els ∧
      (task.2 = cls.gross_qtos ∨ task.2 = cls.net_qtos) := by
  unfold buildTasks at ht
  rcases List.mem_append.mp ht with h | h <;> split at h <;> simp_all [List.mem_map] <;>
    obtain ⟨it, hit, rfl, rfl⟩ := h <;> simp_all

theorem mem_keysOf_calculate {ext : Externals} {cpu : Nat} {file : IfcFile}
    {els : List Element} {qtos : Qtos} {r : Results} {a : Element}
    (ha : a ∈ keysOf (IfcOpenShell.calculate ext cpu file els qtos r)) :
    a ∈ keysOf r ∨ a ∈ els := by
  unfold IfcOpenShell.calculate at ha
  refine foldlInduction _ (fun r' => ∀ a, a ∈ keysOf r' → a ∈ keysOf r ∨ a ∈ els) _ _
    (fun a ha => Or.inl ha) ?_ a ha
  intro r' task htask hr' a ha
  refine foldlInduction _ (fun r'' => ∀ a, a ∈ keysOf r'' → a ∈ keysOf r ∨ a ∈ els) _ _
    hr' ?_ a ha
  intro r'' eg heg hr'' a ha
  rcases mem_keysOf_evalElement ha with h | h
  · exact hr'' a h
  · subst h
    exact Or.inr (mem_yields_of_create_iterators (mem_tasks_cases htask).1 heg)

theorem mem_keysOf_calculate_blender {ext : Externals} {file : IfcFile}
    {els : List Element} {qtos : Qtos} {r : Results} {a : Element}
    (ha : a ∈ keysOf (Blender.calculate ext file els qtos r)) :
    a ∈ keysOf r ∨ a ∈ els := by
  unfold Blender.calculate at ha
  refine foldlInduction _ (fun r' => ∀ a, a ∈ keysOf r' → a ∈ keysOf r ∨ a ∈ els) _ _
    (fun a ha => Or.inl ha) ?_ a ha
  intro r' e he hr' a ha
  rcases hobj : ext.getObject e with _ | obj
  · rw [hobj] at ha
    exact hr' a ha
  · rw [hobj] at ha
    dsimp only at ha
    split at ha
    · exact hr' a ha
    · split at ha
      · exact hr' a ha
      · rcases mem_keysOf_updateAssoc ha with h | h
        · exact hr' a h
        · subst h
          exact Or.inr he

theorem mem_filteredElements {ext : Externals} {file : IfcFile} {els : List Element}
    {cls : String} {e : Element} :
    e ∈ filteredElements ext file els cls ↔
      e ∈ els ∧ (e.ifcClass = cls ∨ e.ifcClass ∈ ext.applicableTypes cls file.schema) := by
  unfold filteredElements
  rw [List.mem_flatMap]
  constructor
  · rintro ⟨c, hc, he⟩
    rw [List.mem_filter] at he
    have hcls : e.ifcClass = c := by simpa using he.2
    rcases List.mem_cons.mp hc with rfl | hc
    · exact ⟨he.1, Or.inl hcls⟩
    · exact ⟨he.1, Or.inr (hcls ▸ hc)⟩
  · rintro ⟨he, hcls | hcls⟩
    · exact ⟨cls, List.mem_cons_self _ _, List.mem_filter.mpr ⟨he, by simp [hcls]⟩⟩
    · exact ⟨e.ifcClass, List.mem_cons_of_mem _ hcls, List.mem_filter.mpr ⟨he, by simp⟩⟩

theorem mem_keysOf_runCalculator {kind : CalculatorKind} {ext : Externals} {cpu : Nat}
    {file : IfcFile} {els : List Element} {qtos : Qtos} {r : Results} {a : Element}
    (ha : a ∈ keysOf (runCalculator kind ext cpu file els qtos r)) :
    a ∈ keysOf r ∨ a ∈ els := by
  cases kind
  · exact mem_keysOf_calculate_blender ha
  · exact mem_keysOf_calculate ha

theorem trace_mono_classStep {ext : Externals} {cpu : Nat} {file : IfcFile}
    {elements : List Element} {calcName : String} {kind : CalculatorKind}
    {acc : Results × List Invocation} {x : String × Qtos} {i : Invocation}
    (hi : i ∈ acc.2) :
    i ∈ (quantifyClassStep ext cpu file elements calcName kind acc x).2 := by
  simp only [quantifyClassStep]
  split
  · exact hi
  · exact List.mem_append_left _ hi

theorem trace_mono_group {ext : Externals} {cpu : Nat} {file : IfcFile}
    {elements : List Element} {acc : Results × List Invocation}
    {g : String × List (String × Qtos)} {i : Invocation} (hi : i ∈ acc.2) :
    i ∈ (quantifyCalcGroup ext cpu file elements acc g).2 := by
  unfold quantifyCalcGroup
  cases lookupAssoc calculators g.1 with
  | none => exact hi
  | some kind =>
    exact foldlInduction (quantifyClassStep ext cpu file elements g.1 kind)
      (fun b => i ∈ b.2) g.2 acc hi (fun b a _ hb => trace_mono_classStep hb)

theorem trace_sound {ext : Externals} {cpu : Nat} {file : IfcFile}
    {elements : List Element} {rules : RulesDict} :
    ∀ i ∈ (quantify ext cpu file elements rules).2,
      SoundInvocation ext file elements i := by
  unfold quantify
  refine foldlInduction (quantifyCalcGroup ext cpu file elements)
    (fun b => ∀ i ∈ b.2, SoundInvocation ext file elements i) _ _
    (by intro i hi; simp at hi) ?_
  intro b g _ hb
  unfold quantifyCalcGroup
  cases hlk : lookupAssoc calculators g.1 with
  | none => exact hb
  | some kind =>
    show ∀ i ∈ (g.2.foldl (quantifyClassStep ext cpu file elements g.1 kind) b).2,
      SoundInvocation ext file elements i
    refine foldlInduction (quantifyClassStep ext cpu file elements g.1 kind)
      (fun b => ∀ i ∈ b.2, SoundInvocation ext file elements i) _ _ hb ?_
    intro b' x _ hb' i hi
    simp only [quantifyClassStep] at hi
    split at hi
    · exact hb' i hi
    · rcases List.mem_append.mp hi with h | h
      · exact hb' i h
      · rw [List.mem_singleton] at h
        subst h
        rename_i hne
        refine ⟨?_, ?_, ?_⟩
        · intro hnil
          have hnil' : filteredElements ext file elements x.1 = [] := hnil
          exact hne (by simp [hnil'])
        · simp [hlk]
        · intro e
          exact mem_filteredElements

theorem trace_hit {ext : Externals} {cpu : Nat} {file : IfcFile}
    {elements : List Element} {calcName : String} {kind : CalculatorKind}
    {acc : Results × List Invocation} {x : String × Qtos}
    (hne : filteredElements ext file elements x.1 ≠ []) :
    (calcName, x.1, filteredElements ext file elements x.1) ∈
      (quantifyClassStep ext cpu file elements calcName kind acc x).2 := by
  simp only [quantifyClassStep]
  rw [if_neg (fun h => hne (List.isEmpty_iff.mp h))]
  exact List.mem_append_right _ (List.mem_singleton.mpr rfl)

theorem trace_complete_group {ext : Externals} {cpu : Nat} {file : IfcFile}
    {elements : List Element} {acc : Results × List Invocation}
    {g : String × List (String × Qtos)} {x : String × Qtos}
    (hkind : (lookupAssoc calculators g.1).isSome = true) (hx : x ∈ g.2)
    (hne : filteredElements ext file elements x.1 ≠ []) :
    (g.1, x.1, filteredElements ext file elements x.1) ∈
      (quantifyCalcGroup ext cpu file elements acc g).2 := by
  unfold quantifyCalcGroup
  cases hlk : lookupAssoc calculators g.1 with
  | none => rw [hlk] at hkind; simp at hkind
  | some kind =>
    show _ ∈ (g.2.foldl (quantifyClassStep ext cpu file elements g.1 kind) acc).2
    obtain ⟨s, t, heq⟩ := List.append_of_mem hx
    rw [heq, List.foldl_append, List.foldl_cons]
    exact foldlInduction (quantifyClassStep ext cpu file elements g.1 kind)
      (fun b => _ ∈ b.2) t _ (trace_hit hne) (fun b a _ hb => trace_mono_classStep hb)

theorem trace_complete {ext : Externals} {cpu : Nat} {file : IfcFile}
    {elements : List Element} {rules : RulesDict} {g : String × List (String × Qtos)}
    {x : String × Qtos} (hg : g ∈ rules.calculators)
    (hkind : (lookupAssoc calculators g.1).isSome = true) (hx : x ∈ g.2)
    (hne : filteredElements ext file elements x.1 ≠ []) :
    (g.1, x.1, filteredElements ext file elements x.1) ∈
      (quantify ext cpu file elements rules).2 := by
  unfold quantify
  obtain ⟨s, t, heq⟩ := List.append_of_mem hg
  rw [heq, List.foldl_append, List.foldl_cons]
  exact foldlInduction (quantifyCalcGroup ext cpu file elements)
    (fun b => _ ∈ b.2) t _ (trace_complete_group hkind hx hne)
    (fun b a _ hb => trace_mono_group hb)

theorem lookupQuantity_store {r : Results} {e e' : Element} {n q n' q' : String}
    {v w : ℚ} (h : lookupQuantity (storeQuantity r e n q v) e' n' q' = some w) :
    (e' = e ∧ n' = n ∧ q' = q ∧ w = v) ∨ lookupQuantity r e' n' q' = some w := by
  unfold lookupQuantity storeQuantity at h
  unfold lookupQuantity
  by_cases he : e' = e
  case neg =>
    rw [lookupAssoc_updateAssoc_ne _ _ _ _ he] at h
    exact Or.inr h
  subst he
  rw [lookupAssoc_updateAssoc_self] at h
  simp only [Option.some_bind] at h
  by_cases hn : n' = n
  case neg =>
    rw [lookupAssoc_updateAssoc_ne _ _ _ _ hn] at h
    cases hre : lookupAssoc r e' with
    | none => rw [hre] at h; simp [lookupAssoc] at h
    | some sets =>
      rw [hre] at h
      simp only [Option.getD_some] at h
      simp [hre, h]
  subst hn
  rw [lookupAssoc_updateAssoc_self] at h
  simp only [Option.some_bind] at h
  by_cases hq : q' = q
  case neg =>
    rw [lookupAssoc_updateAssoc_ne _ _ _ _ hq] at h
    cases hre : lookupAssoc r e' with
    | none => rw [hre] at h; simp [lookupAssoc] at h
    | some sets =>
      rw [hre] at h
      simp only [Option.getD_some] at h
      cases hsn : lookupAssoc sets n' with
      | none => rw [hsn] at h; simp [lookupAssoc] at h
      | some qs =>
        rw [hsn] at h
        simp only [Option.getD_some] at h
        simp [hre, hsn, h]
  subst hq
  rw [lookupAssoc_updateAssoc_self] at h
  exact Or.inl ⟨rfl, rfl, rfl, (Option.some_injective _ h).symm⟩

theorem lookupQuantity_setdefault_nil {r : Results} {e e' : Element} {n q : String}
    {w : ℚ} (h : lookupQuantity (setdefaultAssoc r e []) e' n q = some w) :
    lookupQuantity r e' n q = some w := by
  unfold lookupQuantity setdefaultAssoc at h
  unfold lookupQuantity
  by_cases he : e' = e
  case neg =>
    rw [lookupAssoc_updateAssoc_ne _ _ _ _ he] at h
    exact h
  subst he
  rw [lookupAssoc_updateAssoc_self] at h
  simp only [Option.some_bind] at h
  cases hre : lookupAssoc r e' with
  | none => rw [hre] at h; simp [lookupAssoc] at h
  | some sets =>
    rw [hre] at h
    simp only [Option.getD_some] at h
    simp [hre, h]

theorem lookupQuantity_setdefault_name {r : Results} {e e' : Element} {nm n q : String}
    {w : ℚ}
    (h : lookupQuantity
      (updateAssoc r e (fun sets => setdefaultAssoc (sets.getD []) nm [])) e' n q =
        some w) :
    lookupQuantity r e' n q = some w := by
  unfold lookupQuantity setdefaultAssoc at h
  unfold lookupQuantity
  by_cases he : e' = e
  case neg =>
    rw [lookupAssoc_updateAssoc_ne _ _ _ _ he] at h
    exact h
  subst he
  rw [lookupAssoc_updateAssoc_self] at h
  simp only [Option.some_bind] at h
  by_cases hn : n = nm
  case neg =>
    rw [lookupAssoc_updateAssoc_ne _ _ _ _ hn] at h
    cases hre : lookupAssoc r e' with
    | none => rw [hre] at h; simp [lookupAssoc] at h
    | some sets =>
      rw [hre] at h
      simp only [Option.getD_some] at h
      simp [hre, h]
  subst hn
  rw [lookupAssoc_updateAssoc_self] at h
  simp only [Option.some_bind] at h
  cases hre : lookupAssoc r e' with
  | none =>
    rw [hre] at h
    simp [lookupAssoc] at h
  | some sets =>
    rw [hre] at h
    simp only [Option.getD_some] at h
    cases hsn : lookupAssoc sets n with
    | none => rw [hsn] at h; simp [lookupAssoc] at h
    | some qs =>
      rw [hsn] at h
      simp only [Option.getD_some] at h
      simp [hre, hsn, h]

theorem lookupQuantity_evalElement {ext : Externals} {conv : SI2ProjectUnitConverter}
    {qtos_ : QtosFormulas} {r : Results} {e e' : Element} {g : Geometry}
    {n q : String} {w : ℚ}
    (h : lookupQuantity (evalElement ext conv qtos_ r e g) e' n q = some w) :
    lookupQuantity r e' n q = some w ∨
      ∃ nq qf, nq ∈ qtos_ ∧ qf ∈ nq.2 ∧ e' = e ∧ n = nq.1 ∧ q = qf.1 ∧
        w = computeQuantity ext conv e g qf.2 := by
  unfold evalElement at h
  refine foldlInduction _
    (fun r' => ∀ n q w, lookupQuantity r' e' n q = some w →
      lookupQuantity r e' n q = some w ∨
        ∃ nq qf, nq ∈ qtos_ ∧ qf ∈ nq.2 ∧ e' = e ∧ n = nq.1 ∧ q = qf.1 ∧
          w = computeQuantity ext conv e g qf.2)
    qtos_ _ ?_ ?_ n q w h
  · intro n q w h
    exact Or.inl (lookupQuantity_setdefault_nil h)
  · intro r' nq hnq hr'
    refine foldlInduction _
      (fun r'' => ∀ n q w, lookupQuantity r'' e' n q = some w →
        lookupQuantity r e' n q = some w ∨
          ∃ nq qf, nq ∈ qtos_ ∧ qf ∈ nq.2 ∧ e' = e ∧ n = nq.1 ∧ q = qf.1 ∧
            w = computeQuantity ext conv e g qf.2)
      nq.2 _ ?_ ?_
    · intro n q w h
      exact hr' n q w (lookupQuantity_setdefault_name h)
    · intro r'' qf hqf hr'' n q w h
      rcases lookupQuantity_store h with ⟨he, hn, hq, hw⟩ | h'
      · exact Or.inr ⟨nq, qf, hnq, hqf, he, hn, hq, hw⟩
      · exact hr'' n q w h'

/-- C1: for every rule-table entry keyed by an IFC class, `quantify` invokes
that rule's calculator on exactly the set of input elements whose IFC class
(`is_a`) is that class or one of its applicable type classes for the file's
schema, and makes no invocation when that set is empty: every recorded
invocation carries a nonempty element set that is exactly the set described
by the claim, and every rule-table entry whose set is nonempty gets an
invocation with exactly that set. -/
theorem quantify_invocations_exact (ext : Externals) (cpu : Nat) (file : IfcFile)
    (elements : List Element) (rules : RulesDict) :
    (∀ inv ∈ (quantify ext cpu file elements rules).2,
      inv.2.2 ≠ [] ∧
        ∀ e, e ∈ inv.2.2 ↔
          e ∈ elements ∧
            (e.ifcClass = inv.2.1 ∨ e.ifcClass ∈ ext.applicableTypes inv.2.1 file.schema)) ∧
    (∀ g ∈ rules.calculators, (lookupAssoc calculators g.1).isSome = true →
      ∀ x ∈ g.2,
        (∃ e, e ∈ elements ∧
          (e.ifcClass = x.1 ∨ e.ifcClass ∈ ext.applicableTypes x.1 file.schema)) →
        ∃ S, (g.1, x.1, S) ∈ (quantify ext cpu file elements rules).2 ∧
          ∀ e, e ∈ S ↔
            e ∈ elements ∧
              (e.ifcClass = x.1 ∨ e.ifcClass ∈ ext.applicableTypes x.1 file.schema)) := by
  constructor
  · intro inv hinv
    have hs := trace_sound inv hinv
    exact ⟨hs.1, hs.2.2⟩
  · rintro g hg hk x hx ⟨e, he, hcls⟩
    have hne : filteredElements ext file elements x.1 ≠ [] := by
      intro hnil
      have hmem := mem_filteredElements.mpr ⟨he, hcls⟩
      rw [hnil] at hmem
      simp at hmem
    exact ⟨filteredElements ext file elements x.1, trace_complete hg hk hx hne,
      fun e => mem_filteredElements⟩

/-- Witness for C1 at a concrete file: the `IfcOpenShell` rule for
`IfcWall` is invoked on the wall occurrence and the wall type. -/
theorem quantify_invocations_exact_witness :
    ∃ S, ("IfcOpenShell", "IfcWall", S) ∈
        (quantify ext0 4 file0 [wall0, wallType0] rules0).2 ∧
      ∀ e, e ∈ S ↔
        e ∈ [wall0, wallType0] ∧
          (e.ifcClass = "IfcWall" ∨ e.ifcClass ∈ ext0.applicableTypes "IfcWall" file0.schema) :=
  (quantify_invocations_exact ext0 4 file0 [wall0, wallType0] rules0).2
    ("IfcOpenShell", [("IfcWall", qtos0)]) (by decide) (by decide)
    ("IfcWall", qtos0) (by decide) ⟨wall0, by decide, by decide⟩

/-- C2: every raw SI value computed by a shape-function formula in the
IfcOpenShell calculator is passed through the project-unit converter with
that formula's measure before being stored in the results dictionary: every
value the evaluation loop stores is a pre-existing one or `computeQuantity`
of a configured formula, and for every formula other than
`get_segment_length`, `computeQuantity` is exactly the raw shape value
converted with the formula's measure. -/
theorem calculate_converts_before_store :
    (∀ (ext : Externals) (conv : SI2ProjectUnitConverter) (qtos_ : QtosFormulas)
      (r : Results) (e e' : Element) (g : Geometry) (n q : String) (w : ℚ),
      lookupQuantity (evalElement ext conv qtos_ r e g) e' n q = some w →
      lookupQuantity r e' n q = some w ∨
        ∃ nq qf, nq ∈ qtos_ ∧ qf ∈ nq.2 ∧ w = computeQuantity ext conv e g qf.2) ∧
    (∀ (ext : Externals) (conv : SI2ProjectUnitConverter) (e : Element) (g : Geometry)
      (formula : String), formula ≠ "get_segment_length" →
      computeQuantity ext conv e g formula =
        SI2ProjectUnitConverter.convert ext conv (ext.shapeFn formula g)
          (IfcOpenShell.measureOf formula)) := by
  constructor
  · intro ext conv qtos_ r e e' g n q w h
    rcases lookupQuantity_evalElement h with h' | ⟨nq, qf, hnq, hqf, _, _, _, hw⟩
    · exact Or.inl h'
    · exact Or.inr ⟨nq, qf, hnq, hqf, hw⟩
  · intro ext conv e g formula hne
    unfold computeQuantity
    rw [if_neg hne]

/-- Witness for C2 at a concrete formula: `get_volume` is stored as its
converted raw shape value. -/
theorem calculate_converts_before_store_witness :
    computeQuantity ext0 (SI2ProjectUnitConverter.ofFile file0) wall0 ⟨1⟩ "get_volume" =
      SI2ProjectUnitConverter.convert ext0 (SI2ProjectUnitConverter.ofFile file0)
        (ext0.shapeFn "get_volume" ⟨1⟩) (IfcOpenShell.measureOf "get_volume") :=
  calculate_converts_before_store.2 ext0 (SI2ProjectUnitConverter.ofFile file0) wall0 ⟨1⟩
    "get_volume" (by decide)

/-- C3 (code bug): for a rule set containing only the net formula
`net_get_volume`, the evaluation task for the net bucket is built with
`gross_settings` (opening subtractions disabled) — `create_iterators` is
called with `cls.gross_settings` on line 258 of `qto.py` although the
constructed-but-unused `net_settings` (default settings, openings
subtracted) was evidently intended. -/
theorem net_task_uses_gross_settings :
    (classifyQtos [("Qto_Test", [("NetVolume", some "net_get_volume")])]).gross_qtos = [] ∧
    (classifyQtos [("Qto_Test", [("NetVolume", some "net_get_volume")])]).net_qtos =
      [("Qto_Test", [("NetVolume", "get_volume")])] ∧
    buildTasks 4 [wall0]
        (classifyQtos [("Qto_Test", [("NetVolume", some "net_get_volume")])]) =
      [(Iterator.geomIter IfcOpenShell.gross_settings 4 [wall0],
        [("Qto_Test", [("NetVolume", "get_volume")])])] ∧
    IfcOpenShell.gross_settings.disableOpeningSubtractions = true ∧
    IfcOpenShell.net_settings.disableOpeningSubtractions = false := by
  decide

/-- C4: for each supported formula `gross_F` or `net_F` with `F` not
`get_segment_length`, the calculator strips everything up to the first
underscore before the function lookup, registers the function named `F`
from `ifcopenshell.util.shape` in `formula_functions`, and computes the
quantity by applying that function to the element's triangulated
geometry. -/
theorem gross_net_strip_and_apply :
    ∀ kv ∈ IfcOpenShell.raw_functions, kv.1 ≠ "get_segment_length" →
      (∀ name qty,
        classifyQtos [(name, [(qty, some ("gross_" ++ kv.1))])] =
          ⟨[(name, [(qty, kv.1)])], [], [kv.1]⟩) ∧
      (∀ name qty,
        classifyQtos [(name, [(qty, some ("net_" ++ kv.1))])] =
          ⟨[], [(name, [(qty, kv.1)])], [kv.1]⟩) ∧
      (∀ (ext : Externals) (conv : SI2ProjectUnitConverter) (e : Element) (g : Geometry),
        computeQuantity ext conv e g kv.1 =
          SI2ProjectUnitConverter.convert ext conv (ext.shapeFn kv.1 g)
            (IfcOpenShell.measureOf kv.1)) := by
  intro kv hkv hne
  fin_cases hkv <;>
    first
      | exact absurd rfl hne
      | exact ⟨fun name qty => rfl, fun name qty => rfl, fun ext conv e g => rfl⟩

/-- Witness for C4 at a concrete formula: `gross_get_volume` is stripped to
`get_volume`, bucketed as gross, and `get_volume` registered. -/
theorem gross_net_strip_and_apply_witness :
    classifyQtos [("Qto_X", [("GrossVolume", some "gross_get_volume")])] =
      ⟨[("Qto_X", [("GrossVolume", "get_volume")])], [], ["get_volume"]⟩ :=
  (gross_net_strip_and_apply
    ("get_volume", ⟨"IfcVolumeMeasure", "Volume", "Calculates the volume of a manifold shape"⟩)
    (by decide) (by decide)).1 "Qto_X" "GrossVolume"

/-- C5: the registered calculator table contains exactly the two entries
`Blender` and `IfcOpenShell`, the dispatcher maps `IfcOpenShell` to the
geometry-kernel calculator and `Blender` to the Blender-object calculator,
and every invocation `quantify` makes resolves to exactly one of the
two. -/
theorem calculators_table_exact :
    calculators = [("Blender", CalculatorKind.Blender),
      ("IfcOpenShell", CalculatorKind.IfcOpenShell)] ∧
    (∀ (ext : Externals) (cpu : Nat) (file : IfcFile) (els : List Element)
      (qtos : Qtos) (r : Results),
      runCalculator CalculatorKind.IfcOpenShell ext cpu file els qtos r =
        IfcOpenShell.calculate ext cpu file els qtos r ∧
      runCalculator CalculatorKind.Blender ext cpu file els qtos r =
        Blender.calculate ext file els qtos r) ∧
    (∀ (ext : Externals) (cpu : Nat) (file : IfcFile) (elements : List Element)
      (rules : RulesDict), ∀ inv ∈ (quantify ext cpu file elements rules).2,
      lookupAssoc calculators inv.1 = some CalculatorKind.Blender ∨
        lookupAssoc calculators inv.1 = some CalculatorKind.IfcOpenShell) := by
  refine ⟨rfl, fun _ _ _ _ _ _ => ⟨rfl, rfl⟩, ?_⟩
  intro ext cpu file elements rules inv hinv
  have hs := (trace_sound inv hinv).2.1
  cases hlk : lookupAssoc calculators inv.1 with
  | none => rw [hlk] at hs; simp at hs
  | some kind =>
    cases kind
    · exact Or.inl rfl
    · exact Or.inr rfl

/-- Witness for C5 at a concrete invocation from the trace. -/
theorem calculators_table_exact_witness :
    lookupAssoc calculators "IfcOpenShell" = some CalculatorKind.Blender ∨
      lookupAssoc calculators "IfcOpenShell" = some CalculatorKind.IfcOpenShell :=
  calculators_table_exact.2.2 ext0 4 file0 [wall0, wallType0] rules0
    ("IfcOpenShell", "IfcWall", [wall0, wallType0]) (by decide)

/-- C6: every key of the results dictionary returned by `quantify` is one of
the elements passed in as input: neither calculator adds quantities for an
element outside the requested set. -/
theorem quantify_keys_subset (ext : Externals) (cpu : Nat) (file : IfcFile)
    (elements : List Element) (rules : RulesDict) :
    ∀ a ∈ keysOf (quantify ext cpu file elements rules).1, a ∈ elements := by
  unfold quantify
  refine foldlInduction (quantifyCalcGroup ext cpu file elements)
    (fun b => ∀ a ∈ keysOf b.1, a ∈ elements) _ _
    (by intro a ha; simp [keysOf] at ha) ?_
  intro b g _ hb
  unfold quantifyCalcGroup
  cases lookupAssoc calculators g.1 with
  | none => exact hb
  | some kind =>
    refine foldlInduction (quantifyClassStep ext cpu file elements g.1 kind)
      (fun b => ∀ a ∈ keysOf b.1, a ∈ elements) _ _ hb ?_
    intro b' x _ hb' a ha
    simp only [quantifyClassStep] at ha
    split at ha
    · exact hb' a ha
    · rcases mem_keysOf_runCalculator ha with h | h
      · exact hb' a h
      · exact (mem_filteredElements.mp h).1

/-- Witness for C6: the wall occurrence really is a key of the computed
results of the concrete run, and the theorem places it in the input set. -/
theorem quantify_keys_subset_witness : wall0 ∈ [wall0, wallType0] :=
  quantify_keys_subset ext0 4 file0 [wall0, wallType0] rules0 wall0 (by decide)

/-- C7: `quantify` computes its results without modifying the IFC file (the
file component of its state-threaded translation is returned unchanged, the
translation composing only read operations), while quantity sets are
written into the file by the separate `edit_qtos` operation. -/
theorem quantify_leaves_file_unchanged :
    (∀ (ext : Externals) (cpu : Nat) (file : IfcFile) (elements : List Element)
      (rules : RulesDict), (quantifyFile ext cpu file elements rules).1 = file) ∧
    (∀ (file : IfcFile) (e : Element) (nm : String) (qs : List (String × ℚ)),
      (edit_qtos file [(e, [(nm, qs)])]).qsets e =
        updateAssoc (file.qsets e) nm (fun old => editQtoProps (old.getD []) qs)) := by
  refine ⟨fun _ _ _ _ _ => rfl, ?_⟩
  intro file e nm qs
  simp [edit_qtos]

/-- C8: at module import the rule table is loaded with exactly the two rule
sets `IFC4QtoBaseQuantities` and `IFC4QtoBaseQuantitiesBlender`, each parsed
from the JSON file of the same name in the module's directory. -/
theorem rules_loaded_exactly {α : Type} (readJson : String → α) (cwd : String) :
    loadRules readJson cwd =
      [("IFC4QtoBaseQuantities", readJson (cwd ++ "/" ++ "IFC4QtoBaseQuantities.json")),
       ("IFC4QtoBaseQuantitiesBlender",
        readJson (cwd ++ "/" ++ "IFC4QtoBaseQuantitiesBlender.json"))] := rfl

end Qto

namespace Alignment

/-- C9 counterexample: an entity that is not an `IfcCurveSegment` but has a
`SegmentLength` attribute (such as an `IfcAlignmentHorizontalSegment`), with
`dist_along` exceeding it: the claim says this raises `ValueError`, but
`evaluate_segment` raises `NotImplementedError`, because the entity-type
check comes first. -/
theorem evaluate_segment_valueerror_counterexample :
    (2 : ℚ) > (Entity.mk "IfcAlignmentHorizontalSegment" 1).segmentLength ∧
    evaluate_segment (fun _ _ => (0 : ℚ)) (Entity.mk "IfcAlignmentHorizontalSegment" 1) 2 ≠
      Except.error EvalError.valueError ∧
    evaluate_segment (fun _ _ => (0 : ℚ)) (Entity.mk "IfcAlignmentHorizontalSegment" 1) 2 =
      Except.error EvalError.notImplementedError := by
  refine ⟨by norm_num, ?_, rfl⟩
  have heval : evaluate_segment (fun _ _ => (0 : ℚ))
      (Entity.mk "IfcAlignmentHorizontalSegment" 1) 2 =
        Except.error EvalError.notImplementedError := rfl
  rw [heval]
  simp

/-- C9 amended: `evaluate_segment` raises `NotImplementedError` whenever the
given entity is not an `IfcCurveSegment`; when the entity is an
`IfcCurveSegment`, it raises `ValueError` whenever `dist_along` exceeds the
segment's `SegmentLength`, and only when neither condition holds does it
evaluate and return the transform at `dist_along`. -/
theorem evaluate_segment_spec {M : Type} (pwfEvaluate : Entity → ℚ → M)
    (seg : Entity) (d : ℚ) :
    (Qto.strUpper seg.isA ≠ "IFCCURVESEGMENT" →
      evaluate_segment pwfEvaluate seg d = Except.error EvalError.notImplementedError) ∧
    (Qto.strUpper seg.isA = "IFCCURVESEGMENT" → d > seg.segmentLength →
      evaluate_segment pwfEvaluate seg d = Except.error EvalError.valueError) ∧
    (Qto.strUpper seg.isA = "IFCCURVESEGMENT" → d ≤ seg.segmentLength →
      evaluate_segment pwfEvaluate seg d = Except.ok (pwfEvaluate seg d)) := by
  unfold evaluate_segment supported_segment_types
  refine ⟨?_, ?_, ?_⟩
  · intro hne
    rw [if_pos (by simpa using hne)]
  · intro heq hgt
    rw [if_neg (by simp [heq]), if_pos hgt]
  · intro heq hle
    rw [if_neg (by simp [heq]), if_neg (not_lt.mpr hle)]

/-- Witness for the amended C9: a genuine `IfcCurveSegment` with
`dist_along` within its length evaluates successfully. -/
theorem evaluate_segment_spec_witness :
    evaluate_segment (fun _ _ => (0 : ℚ)) (Entity.mk "IfcCurveSegment" 5) 2 =
      Except.ok 0 :=
  (evaluate_segment_spec (fun _ _ => (0 : ℚ)) (Entity.mk "IfcCurveSegment" 5) 2).2.2
    (by decide) (by norm_num)

end Alignment

namespace Qto

/-- C10: the engine's only parallelism is the external geometry iterator:
`create_iterators` returns the kernel iterator exactly when non-type-product
elements are present, every kernel iterator it returns carries
`multiprocessing.cpu_count()` as its worker count, and that iterator
processes only non-type-product elements of the input. -/
theorem create_iterators_parallelism (ext : Externals) (cpu : Nat) (s : Settings)
    (elements : List Element) :
    (Iterator.geomIter s cpu elements ∈ create_iterators cpu s elements ↔
      ∃ e, e ∈ elements ∧ e.isTypeProduct = false) ∧
    (∀ s' n incl, Iterator.geomIter s' n incl ∈ create_iterators cpu s elements →
      n = cpu ∧ s' = s ∧ incl = elements) ∧
    (∀ p ∈ iteratorYields ext (Iterator.geomIter s cpu elements),
      p.1 ∈ elements ∧ p.1.isTypeProduct = false) := by
  refine ⟨geomIter_mem_create_iterators, ?_, fun p hp => mem_yields_geomIter hp⟩
  intro s' n incl hit
  rcases mem_create_iterators_cases hit with h | h
  · simp at h
  · injection h with h1 h2 h3
    exact ⟨h2, h1, h3⟩

/-- Witness for C10: with one non-type-product element, the kernel iterator
with the given worker count is constructed. -/
theorem create_iterators_parallelism_witness :
    Iterator.geomIter IfcOpenShell.gross_settings 4 [wall0] ∈
      create_iterators 4 IfcOpenShell.gross_settings [wall0] :=
  (create_iterators_parallelism ext0 4 IfcOpenShell.gross_settings [wall0]).1.mpr
    ⟨wall0, by decide, by decide⟩

end Qto
